import Mathlib

/-!
Shallow embedding of the control core of CWRUbotixROV/rov-vision-22.

* `src/vehicle/vehicle_control.py` — `VehicleControl`: heartbeat-driven
  connection/arm/mode state machine, RC input validation and transmission,
  relay side-channel commands.
* `src/tasks/button_docking.py` — `ButtonDocking`: a three-phase
  visual-servo docking task.

Time is modelled as an explicit rational-valued clock argument; Python
floats are modelled as exact rationals; Python `dict`s (whose iteration
order is insertion order) are modelled as association lists; a Python
`raise` is modelled with `Except`; the commands/signals a method emits
are returned as explicit lists.
-/

namespace RovVision

/-! ## Constants (src/vehicle/vehicle_control.py) -/

/-- `TIMEOUT = 2` — seconds without a message before the connection is
considered lost. -/
def TIMEOUT : ℚ := 2

/-- Modelled from the spec: `vehicle/constants.py` is not under `src/`.
The spec describes `InputChannel` as the six enumerated logical actuator
axes (forward, lateral, throttle, pitch, yaw, roll), each mapped 1:1 to a
physical channel id in the addressing space 1..18. -/
inductive InputChannel
  | pitch
  | roll
  | throttle
  | yaw
  | forward
  | lateral
deriving DecidableEq, Repr

/-- Modelled from the spec: the 1:1 physical channel id of each logical
axis, inside the physical channel addressing space 1..18. -/
def InputChannel.value : InputChannel → ℤ
  | .pitch => 1
  | .roll => 2
  | .throttle => 3
  | .yaw => 4
  | .forward => 5
  | .lateral => 6

/-- Modelled from the spec: `vehicle/constants.py` is not under `src/`.
The spec describes `RelayId` as enumerated discrete auxiliary circuits,
each toggled independently. -/
inductive Relay
  | r0
  | r1
  | r2
deriving DecidableEq, Repr

/-- Modelled from the spec: the full list of relay enum members, in the
order `for relay in Relay` iterates them. -/
def relayMembers : List Relay := [Relay.r0, Relay.r1, Relay.r2]

/-! ## Errors

Both validation failures in the source are Python `ValueError`s with
distinct messages; the spec's taxonomy names them `InvalidChannelError`
and `OutOfRangeError`. Distinct constructors keep the raise sites
distinguishable. -/

inductive VErr
  | invalidChannel (channelId : ℤ)
  | pwmOutOfRange (pwm : ℤ)
  | inputOutOfRange (v : ℚ)
deriving DecidableEq, Repr

/-! ## VehicleControl state

Fields of `VehicleControl.__init__` read or written by the embedded
methods. The live mavlink link handle, Qt thread pool and camera state
map are owned by the object but untouched by the methods the claims
concern; signals emitted are returned explicitly as `Event` lists. -/

structure VState where
  last_msg_time : Option ℚ
  connected : Bool
  armed : Bool
  mode_id : Option ℤ
  mode : Option String
deriving DecidableEq, Repr

/-- `VehicleControl.__init__`: `last_msg_time = None`, `connected = False`,
`armed = False`, `mode_id = None`, `mode = None`. -/
def initState : VState :=
  { last_msg_time := none, connected := false, armed := false,
    mode_id := none, mode := none }

/-- The Qt signals `VehicleControl` emits, as explicit events. -/
inductive Event
  | connectedEv
  | disconnectedEv
  | armedEv
  | disarmedEv
  | modeEv (mode : Option String)
  | depthEv (alt : ℚ)
deriving DecidableEq, Repr

/-- A heartbeat-class inbound message: the fields `update` reads from
`msg.to_dict()`. -/
structure Heartbeat where
  base_mode : ℕ
  custom_mode : ℤ
deriving DecidableEq, Repr

/-- `VehicleControl.update`. `mm` is the link-provided mode name↔id table
(`self.link.mode_mapping()`), `msg` the pending heartbeat (if any), `vfr`
the pending `VFR_HUD` altitude (if any), `now` the wall clock. Returns
`none` exactly when the Python code would crash: evaluating
`time.time() - self.last_msg_time` with `last_msg_time` still `None`
(a `TypeError`). Otherwise returns the updated state and the emitted
signals in emission order. -/
def update (mm : List (String × ℤ)) (s : VState) (msg : Option Heartbeat)
    (vfr : Option ℚ) (now : ℚ) : Option (VState × List Event) :=
  let depthEvs : List Event := match vfr with
    | some alt => [Event.depthEv alt]
    | none => []
  match msg with
  | some hb =>
    let evsConn : List Event := if s.connected then [] else [Event.connectedEv]
    let armed : Bool := hb.base_mode &&& 0x80 == 0x80
    let evsArm : List Event :=
      if armed = s.armed then []
      else if armed then [Event.armedEv] else [Event.disarmedEv]
    let modeChanged : Bool := some hb.custom_mode != s.mode_id
    let newMode : Option String :=
      (mm.find? (fun p => p.2 == hb.custom_mode)).map Prod.fst
    let evsMode : List Event := if modeChanged then [Event.modeEv newMode] else []
    some ({ last_msg_time := some now, connected := true, armed := armed,
            mode_id := some hb.custom_mode,
            mode := if modeChanged then newMode else s.mode },
          evsConn ++ evsArm ++ evsMode ++ depthEvs)
  | none =>
    if s.connected then
      match s.last_msg_time with
      | none => none
      | some t =>
        if now - t > TIMEOUT then
          some ({ s with connected := false }, Event.disconnectedEv :: depthEvs)
        else
          some (s, depthEvs)
    else
      some (s, depthEvs)

/-! ## Outbound commands -/

/-- Commands `VehicleControl` dispatches: relay side-channel payloads
(sent asynchronously via the thread pool) and the mavlink arm/disarm
commands, recorded in program dispatch order. -/
inductive Cmd
  | relaySet (relay : Relay) (enabled : Bool)
  | armCmd
  | disarmCmd
deriving DecidableEq, Repr

/-- `VehicleControl.set_relay`: no-op
when `not self.is_connected() or (not self.is_armed() and state)`;
otherwise dispatches the relay payload asynchronously. -/
def set_relay (s : VState) (relay : Relay) (state : Bool) : List Cmd :=
  if !s.connected || (!s.armed && state) then []
  else [Cmd.relaySet relay state]

/-- `VehicleControl.turn_off_relays`: `set_relay(relay, False)` for every
relay enum member, in order. -/
def turn_off_relays (s : VState) : List Cmd :=
  (relayMembers.map (fun relay => set_relay s relay false)).flatten

/-- `VehicleControl.disarm`: `turn_off_relays()` first, then the mavlink
disarm command, in program order. -/
def disarm (s : VState) : List Cmd :=
  turn_off_relays s ++ [Cmd.disarmCmd]

/-! ## RC input transmission -/

/-- Outcome of `set_rc_input_pwms`: either the early return (link
disconnected or vehicle disarmed — nothing transmitted, no state change)
or the 18-slot RC override array actually sent, where `65535` encodes
"ignore this field". -/
inductive RcResult
  | dropped
  | sent (channels : List ℤ)
deriving DecidableEq, Repr

/-- The validation loop of `set_rc_input_pwms`: walks the pwm map in
iteration order, raising on a channel id outside 1..18 or a pwm outside
[1100, 1900], writing `pwm` into slot `channel_id - 1` otherwise. -/
def fillChannels : List ℤ → List (ℤ × ℤ) → Except VErr (List ℤ)
  | acc, [] => Except.ok acc
  | acc, (channel_id, pwm) :: rest =>
    if channel_id < 1 ∨ channel_id > 18 then
      Except.error (VErr.invalidChannel channel_id)
    else if ¬ (1100 ≤ pwm ∧ pwm ≤ 1900) then
      Except.error (VErr.pwmOutOfRange pwm)
    else
      fillChannels (acc.set (channel_id - 1).toNat pwm) rest

/-- `VehicleControl.set_rc_input_pwms`: early `return` when the link is
disconnected or the vehicle is disarmed; otherwise validates every entry
and sends the RC override array built from `[65535] * 18`. -/
def set_rc_input_pwms (s : VState) (pwms : List (ℤ × ℤ)) : Except VErr RcResult :=
  if !s.connected || !s.armed then Except.ok RcResult.dropped
  else (fillChannels (List.replicate 18 65535) pwms).map RcResult.sent

/-- Python's `round`: round half to even (banker's rounding), on exact
rationals. -/
def pyRound (q : ℚ) : ℤ :=
  if q - ⌊q⌋ < 1/2 then ⌊q⌋
  else if 1/2 < q - ⌊q⌋ then ⌊q⌋ + 1
  else if ⌊q⌋ % 2 = 0 then ⌊q⌋ else ⌊q⌋ + 1

/-- The body of `set_rc_inputs`'s loop after the range check:
`round(val * 400 + 1500)` clamped into [1100, 1900]
("in case of float weirdness"). -/
def computePwm (val : ℚ) : ℤ :=
  min (max (pyRound (val * 400 + 1500)) 1100) 1900

/-- The validation/conversion loop of `set_rc_inputs`: raises on the
first value outside [-1, 1] (in iteration order), otherwise builds the
channel-id → pwm map. -/
def buildPwms : List (InputChannel × ℚ) → Except VErr (List (ℤ × ℤ))
  | [] => Except.ok []
  | (channel, val) :: rest =>
    if ¬ (-1 ≤ val ∧ val ≤ 1) then
      Except.error (VErr.inputOutOfRange val)
    else
      (buildPwms rest).map (fun ps => (channel.value, computePwm val) :: ps)

/-- `VehicleControl.set_rc_inputs`: validates and converts every
normalized input, then calls `set_rc_input_pwms` — the whole batch is
validated before any transmission. -/
def set_rc_inputs (s : VState) (values : List (InputChannel × ℚ)) :
    Except VErr RcResult :=
  match buildPwms values with
  | Except.error e => Except.error e
  | Except.ok pwms => set_rc_input_pwms s pwms

/-! ## ButtonDocking (src/tasks/button_docking.py) -/

/-- `MAX_TASK_DURATION = 500`. -/
def MAX_TASK_DURATION : ℚ := 500

/-- `MIN_TASK_DURATION = 2`. -/
def MIN_TASK_DURATION : ℚ := 2

/-- `START_WIDTH_FRACTION = 0.035`. -/
def START_WIDTH_FRACTION : ℚ := 35/1000

/-- `START_HEIGHT_FRACTION = 0.035`. -/
def START_HEIGHT_FRACTION : ℚ := 35/1000

/-- `STOP_WIDTH_FRACTION = 0.15`. -/
def STOP_WIDTH_FRACTION : ℚ := 15/100

/-- `STOP_HEIGHT_FRACTION = 0.15`. -/
def STOP_HEIGHT_FRACTION : ℚ := 15/100

/-- `END_WIDTH_FRACTION = 0.3`. -/
def END_WIDTH_FRACTION : ℚ := 3/10

/-- `END_HEIGHT_FRACTION = 0.3`. -/
def END_HEIGHT_FRACTION : ℚ := 3/10

/-- The fields of `ButtonDocking` (its `__init__` beyond the vehicle
handle held by `BaseTask`): target position, target bounding-box
dimensions, frame dimensions, task start timestamp and the phase variable
(`0 = crawl, 1 = steer, 2 = ram`). -/
structure BDState where
  button_pos : ℚ × ℚ
  button_dims : ℚ × ℚ
  image_dims : ℚ × ℚ
  start_time : ℚ
  state : ℕ
deriving DecidableEq, Repr

/-- `ButtonDocking.__init__`: sentinel `[-1, -1]` for position and both
dimension pairs, `start_time = 0`, phase `0` (crawl). -/
def bdNew : BDState :=
  { button_pos := (-1, -1), button_dims := (-1, -1), image_dims := (-1, -1),
    start_time := 0, state := 0 }

/-- `ButtonDocking.initialize`: records the start time and resets the
phase to crawl. (It also stops the thrusters and requests `ALT_HOLD`
mode — side effects on the vehicle, not on the task fields.) -/
def bdInit (s : BDState) (now : ℚ) : BDState :=
  { s with start_time := now, state := 0 }

/-- The perception output `handle_frame` consumes when
`get_button_contour` scores a contour above zero: the bounding rectangle
`x, y, w, h` of the best contour and the shape of the frame image. -/
structure Detection where
  x : ℤ
  y : ℤ
  w : ℤ
  h : ℤ
  frameWidth : ℤ
  frameHeight : ℤ
deriving DecidableEq, Repr

/-- `ButtonDocking.handle_frame`: when a contour with positive score is
found, stores the box center `[x + w/2, y + h/2]`, the box dimensions
`[w, h]` and the frame dimensions `[int(width/2), height]`; otherwise
leaves every field unchanged. -/
def handle_frame (s : BDState) (det : Option Detection) : BDState :=
  match det with
  | none => s
  | some d =>
    { s with
      button_pos := ((d.x : ℚ) + (d.w : ℚ)/2, (d.y : ℚ) + (d.h : ℚ)/2),
      button_dims := ((d.w : ℚ), (d.h : ℚ)),
      image_dims := ((d.frameWidth / 2 : ℤ), (d.frameHeight : ℚ)) }

/-- The phase-variable effect of `ButtonDocking.periodic`: early return
while `button_pos` is still the `[-1, -1]` sentinel; in crawl (0),
advance to steer (1) once the box width/height reaches the "start"
fraction of the frame; in steer (1), advance to ram (2) once it reaches
the "stop" fraction. `periodic`'s only write to the task's own fields is
`self.state`; the thruster intents it commands are side effects on the
vehicle. -/
def periodic (s : BDState) : BDState :=
  if s.button_pos = (-1, -1) then s
  else if s.state = 0 then
    if START_WIDTH_FRACTION * s.image_dims.1 ≤ s.button_dims.1
        ∨ START_HEIGHT_FRACTION * s.image_dims.2 ≤ s.button_dims.2 then
      { s with state := 1 }
    else s
  else if s.state = 1 then
    if STOP_WIDTH_FRACTION * s.image_dims.1 ≤ s.button_dims.1
        ∨ STOP_HEIGHT_FRACTION * s.image_dims.2 ≤ s.button_dims.2 then
      { s with state := 2 }
    else s
  else s

/-- `ButtonDocking.is_finished` at wall clock `now`:
`time.time() >= start_time + MIN_TASK_DURATION` and (box width/height
strictly exceeds the "end" fraction of the frame, or
`time.time() >= start_time + MAX_TASK_DURATION`). -/
def is_finished (s : BDState) (now : ℚ) : Bool :=
  decide (s.start_time + MIN_TASK_DURATION ≤ now) &&
    (decide (END_WIDTH_FRACTION * s.image_dims.1 < s.button_dims.1) ||
     decide (END_HEIGHT_FRACTION * s.image_dims.2 < s.button_dims.2) ||
     decide (s.start_time + MAX_TASK_DURATION ≤ now))

/-- The connected-and-armed `VehicleControl` state used by witnesses. -/
def connArmed : VState :=
  { last_msg_time := none, connected := true, armed := true,
    mode_id := none, mode := none }

/-- The connected-but-disarmed `VehicleControl` state used by witnesses. -/
def connDisarmed : VState :=
  { last_msg_time := none, connected := true, armed := false,
    mode_id := none, mode := none }

/-- A connected state whose last heartbeat arrived at time `0`. -/
def c5Connected : VState :=
  { last_msg_time := some 0, connected := true, armed := false,
    mode_id := none, mode := none }

/-- The invariant of C10: whenever the `connected` flag is set,
`last_msg_time` holds a timestamp. -/
def HeartbeatInv (s : VState) : Prop :=
  s.connected = true → s.last_msg_time ≠ none

/-- One externally driven step of a `ButtonDocking` instance: either the
scheduler ticks `periodic()` or a new frame arrives at `handle_frame`. -/
inductive BDEvent
  | tick
  | frame (det : Option Detection)

/-- Apply one event to the task state. -/
def bdStep (s : BDState) : BDEvent → BDState
  | BDEvent.tick => periodic s
  | BDEvent.frame det => handle_frame s det

/-- Run a sequence of `periodic()`/`handle_frame()` calls. -/
def bdRun (s : BDState) : List BDEvent → BDState
  | [] => s
  | ev :: rest => bdRun (bdStep s ev) rest

/-! ## Helper lemmas about `pyRound` and `computePwm` -/

theorem le_pyRound {x : ℚ} {n : ℤ} (h : (n : ℚ) ≤ x) : n ≤ pyRound x := by
  have hf : n ≤ ⌊x⌋ := Int.le_floor.mpr h
  unfold pyRound
  split_ifs <;> omega

theorem pyRound_le {x : ℚ} {n : ℤ} (h : x ≤ (n : ℚ)) : pyRound x ≤ n := by
  have hf : ⌊x⌋ ≤ n := by
    have h1 : ⌊x⌋ ≤ ⌊(n : ℚ)⌋ := Int.floor_le_floor h
    simpa using h1
  have hfx : (⌊x⌋ : ℚ) ≤ x := Int.floor_le x
  have hcast : (⌊x⌋ : ℚ) ≤ (n : ℚ) := by exact_mod_cast hf
  unfold pyRound
  split_ifs with h1 h2 h3
  · exact hf
  · -- `1/2 < x - ⌊x⌋`, so `x > ⌊x⌋`, hence `⌊x⌋ < n`
    have : (⌊x⌋ : ℚ) < (n : ℚ) := by linarith
    have : ⌊x⌋ < n := by exact_mod_cast this
    omega
  · exact hf
  · have : (⌊x⌋ : ℚ) < (n : ℚ) := by
      by_contra hcon
      have he : (⌊x⌋ : ℚ) = (n : ℚ) := le_antisymm hcast (not_lt.mp hcon)
      rw [he] at h1
      have : x - (n : ℚ) ≤ 0 := by linarith
      norm_num at h1
      linarith
    have : ⌊x⌋ < n := by exact_mod_cast this
    omega

theorem pyRound_mono {x y : ℚ} (hxy : x ≤ y) : pyRound x ≤ pyRound y := by
  rcases lt_or_le ⌊x⌋ ⌊y⌋ with hf | hf
  · have h1 : pyRound x ≤ ⌊x⌋ + 1 := by
      unfold pyRound; split_ifs <;> omega
    have h2 : ⌊y⌋ ≤ pyRound y := by
      unfold pyRound; split_ifs <;> omega
    omega
  · have hfe : ⌊x⌋ = ⌊y⌋ := le_antisymm (Int.floor_le_floor hxy) hf
    unfold pyRound
    rw [hfe]
    split_ifs <;> first | omega | linarith

theorem pyRound_bounds_of_unit {v : ℚ} (h1 : -1 ≤ v) (h2 : v ≤ 1) :
    1100 ≤ pyRound (v * 400 + 1500) ∧ pyRound (v * 400 + 1500) ≤ 1900 := by
  constructor
  · exact le_pyRound (n := 1100) (by push_cast; linarith)
  · exact pyRound_le (n := 1900) (by push_cast; linarith)

theorem computePwm_eq_pyRound {v : ℚ} (h1 : -1 ≤ v) (h2 : v ≤ 1) :
    computePwm v = pyRound (v * 400 + 1500) := by
  obtain ⟨hlo, hhi⟩ := pyRound_bounds_of_unit h1 h2
  unfold computePwm
  omega

theorem computePwm_mono {a b : ℚ} (hab : a ≤ b) : computePwm a ≤ computePwm b := by
  have h : pyRound (a * 400 + 1500) ≤ pyRound (b * 400 + 1500) :=
    pyRound_mono (by linarith)
  unfold computePwm
  omega

/-! ## Claim theorems -/

/-- C9 counterexample: the claimed biconditional
`a < b ⟺ pwm(a) ≤ pwm(b)` fails at the concrete in-range input
`a = b = 0`: `pwm(0) ≤ pwm(0)` holds while `0 < 0` does not, so the
right-to-left direction is false. -/
theorem computePwm_strict_mono_iff_counterexample :
    (-1 ≤ (0 : ℚ) ∧ (0 : ℚ) ≤ 1) ∧
    computePwm 0 ≤ computePwm 0 ∧ ¬ ((0 : ℚ) < (0 : ℚ)) := by
  refine ⟨⟨by norm_num, by norm_num⟩, le_refl _, by norm_num⟩

/-- C9 (amended): the normalized-input-to-PWM mapping
`pwm(v) = clamp(round(v * 400 + 1500), 1100, 1900)` is monotone: for all
`a, b ∈ [-1, 1]`, `a < b` implies `pwm(a) ≤ pwm(b)` (the converse
direction of the claimed biconditional fails at `a = b`). -/
theorem computePwm_monotone (a b : ℚ) (_ha1 : -1 ≤ a) (_ha2 : a ≤ 1)
    (_hb1 : -1 ≤ b) (_hb2 : b ≤ 1) (hab : a < b) :
    computePwm a ≤ computePwm b :=
  computePwm_mono (le_of_lt hab)

/-- C9 witness: the monotonicity theorem applied at `a = 0`, `b = 1`. -/
theorem computePwm_monotone_witness : computePwm 0 ≤ computePwm 1 :=
  computePwm_monotone 0 1 (by norm_num) (by norm_num) (by norm_num)
    (by norm_num) (by norm_num)

/-- C2: whenever the link is disconnected or the vehicle is disarmed,
`set_rc_input_pwms` is a no-op: it returns success trivially with the
`dropped` outcome — nothing is transmitted, no field of the object is
written, and the command is not queued anywhere for later delivery. -/
theorem set_rc_input_pwms_dropped (s : VState) (pwms : List (ℤ × ℤ))
    (h : s.connected = false ∨ s.armed = false) :
    set_rc_input_pwms s pwms = Except.ok RcResult.dropped := by
  unfold set_rc_input_pwms
  rcases h with h | h <;> simp [h]

/-- C2 witness: the no-op theorem applied to the freshly constructed
(disconnected) state and a pwm map that would otherwise be rejected. -/
theorem set_rc_input_pwms_dropped_witness :
    set_rc_input_pwms initState [(0, 99999)] = Except.ok RcResult.dropped :=
  set_rc_input_pwms_dropped initState [(0, 99999)] (Or.inl rfl)

/-- C7: `set_relay` dispatches nothing when the link is disconnected, and
dispatches nothing when asked to enable a relay while disarmed; asked to
disable a relay while disarmed (link connected), it dispatches the
disable command. -/
theorem set_relay_policy (s : VState) (relay : Relay) :
    (s.connected = false → ∀ st, set_relay s relay st = []) ∧
    (s.armed = false → set_relay s relay true = []) ∧
    (s.connected = true → s.armed = false →
      set_relay s relay false = [Cmd.relaySet relay false]) := by
  refine ⟨fun hc st => ?_, fun ha => ?_, fun hc ha => ?_⟩
  · simp [set_relay, hc]
  · unfold set_relay
    simp [ha]
  · simp [set_relay, hc, ha]

/-- C7 witness: the policy theorem applied to a connected, disarmed
state: enabling relay `r0` dispatches nothing, disabling it dispatches
the disable command. -/
theorem set_relay_policy_witness :
    set_relay connDisarmed Relay.r0 true = [] ∧
    set_relay connDisarmed Relay.r0 false = [Cmd.relaySet Relay.r0 false] := by
  refine ⟨(set_relay_policy connDisarmed Relay.r0).2.1 rfl,
    (set_relay_policy connDisarmed Relay.r0).2.2 rfl rfl⟩

/-- C6 counterexample: on the freshly constructed (disconnected) state,
`disarm()` dispatches only the disarm command — `set_relay`'s
disconnected guard drops every relay-off command, so no relay is forced
to disabled before the disarm signal. -/
theorem disarm_counterexample :
    disarm initState = [Cmd.disarmCmd] ∧
    Cmd.relaySet Relay.r0 false ∉ disarm initState := by
  constructor
  · rfl
  · intro h
    simp [disarm, turn_off_relays, relayMembers, set_relay, initState] at h

/-- C6 (amended): `disarm()` always runs `turn_off_relays()` to
completion before sending the disarm command, so in dispatch order every
relay-off command precedes the disarm signal and the disarm signal is
never among the relay dispatches; when the link is connected, every
relay receives its disable dispatch (when disconnected, `set_relay`'s
guard drops them all and only the disarm is sent). -/
theorem disarm_dispatch_order (s : VState) :
    disarm s = turn_off_relays s ++ [Cmd.disarmCmd] ∧
    Cmd.disarmCmd ∉ turn_off_relays s ∧
    (s.connected = true →
      turn_off_relays s = relayMembers.map (fun r => Cmd.relaySet r false)) := by
  refine ⟨rfl, ?_, fun hc => ?_⟩
  · cases hc : s.connected <;>
      simp [turn_off_relays, relayMembers, set_relay, hc]
  · simp [turn_off_relays, relayMembers, set_relay, hc]

/-- C6 witness: the dispatch-order theorem applied to a connected state:
every relay's disable command is dispatched, in enum order, before the
disarm command. -/
theorem disarm_dispatch_order_witness :
    turn_off_relays connDisarmed
      = relayMembers.map (fun r => Cmd.relaySet r false) :=
  (disarm_dispatch_order connDisarmed).2.2 rfl

/-! ## Helper lemmas for the RC input path -/

theorem InputChannel.value_bounds (c : InputChannel) :
    1 ≤ c.value ∧ c.value ≤ 18 := by
  cases c <;> simp [InputChannel.value]

theorem buildPwms_ok (values : List (InputChannel × ℚ))
    (h : ∀ p ∈ values, -1 ≤ p.2 ∧ p.2 ≤ 1) :
    buildPwms values
      = Except.ok (values.map fun p => (p.1.value, pyRound (p.2 * 400 + 1500))) := by
  induction values with
  | nil => rfl
  | cons hd tl ih =>
    obtain ⟨h1, h2⟩ := h hd (List.mem_cons_self hd tl)
    have hrest : ∀ p ∈ tl, -1 ≤ p.2 ∧ p.2 ≤ 1 :=
      fun p hp => h p (List.mem_cons_of_mem hd hp)
    obtain ⟨c, v⟩ := hd
    simp only [buildPwms]
    rw [if_neg (by push_neg; exact ⟨h1, h2⟩)]
    rw [ih hrest]
    simp [Except.map, computePwm_eq_pyRound h1 h2]

theorem buildPwms_error (values : List (InputChannel × ℚ))
    (h : ∃ p ∈ values, p.2 < -1 ∨ 1 < p.2) :
    ∃ v : ℚ, (v < -1 ∨ 1 < v) ∧
      buildPwms values = Except.error (VErr.inputOutOfRange v) := by
  induction values with
  | nil => simp at h
  | cons hd tl ih =>
    obtain ⟨c, v⟩ := hd
    by_cases hv : -1 ≤ v ∧ v ≤ 1
    · have htl : ∃ p ∈ tl, p.2 < -1 ∨ 1 < p.2 := by
        obtain ⟨p, hp, hout⟩ := h
        rcases List.mem_cons.mp hp with heq | hmem
        · exfalso
          rw [heq] at hout
          rcases hout with hout | hout <;> simp at hout <;> linarith [hv.1, hv.2]
        · exact ⟨p, hmem, hout⟩
      obtain ⟨w, hw, hbuild⟩ := ih htl
      refine ⟨w, hw, ?_⟩
      simp only [buildPwms]
      rw [if_neg (by push_neg; exact hv)]
      rw [hbuild]
      rfl
    · refine ⟨v, ?_, ?_⟩
      · push_neg at hv
        by_cases h1 : -1 ≤ v
        · exact Or.inr (hv h1)
        · exact Or.inl (lt_of_not_le h1)
      · simp only [buildPwms]
        rw [if_pos hv]

theorem fillChannels_ok (pwms : List (ℤ × ℤ)) :
    ∀ acc : List ℤ,
      (∀ p ∈ pwms, 1 ≤ p.1 ∧ p.1 ≤ 18 ∧ 1100 ≤ p.2 ∧ p.2 ≤ 1900) →
      ∃ cs : List ℤ, fillChannels acc pwms = Except.ok cs := by
  induction pwms with
  | nil => intro acc _; exact ⟨acc, rfl⟩
  | cons hd tl ih =>
    intro acc h
    obtain ⟨c, p⟩ := hd
    obtain ⟨h1, h2, h3, h4⟩ := h (c, p) (List.mem_cons_self _ tl)
    have hrest : ∀ q ∈ tl, 1 ≤ q.1 ∧ q.1 ≤ 18 ∧ 1100 ≤ q.2 ∧ q.2 ≤ 1900 :=
      fun q hq => h q (List.mem_cons_of_mem _ hq)
    obtain ⟨cs, hcs⟩ := ih (acc.set (c - 1).toNat p) hrest
    refine ⟨cs, ?_⟩
    simp only [fillChannels]
    rw [if_neg (by omega), if_neg (by omega)]
    exact hcs

/-- C1: batched range policy of `set_rc_inputs`. If every value of the
input map lies in `[-1, 1]`, the call succeeds, the pwm map it builds
commands exactly `round(value * 400 + 1500)` for each present channel,
that rounded value already lies in `[1100, 1900]` so the defensive clamp
returns it unchanged. If any value lies outside `[-1, 1]`, the call
raises the out-of-range error for such a value and transmits nothing —
the whole batch is rejected before any transmission. -/
theorem set_rc_inputs_range_policy (s : VState) (values : List (InputChannel × ℚ)) :
    ((∀ p ∈ values, -1 ≤ p.2 ∧ p.2 ≤ 1) →
      (∃ r, set_rc_inputs s values = Except.ok r) ∧
      buildPwms values
        = Except.ok (values.map fun p => (p.1.value, pyRound (p.2 * 400 + 1500))) ∧
      (∀ p ∈ values, computePwm p.2 = pyRound (p.2 * 400 + 1500) ∧
        1100 ≤ pyRound (p.2 * 400 + 1500) ∧ pyRound (p.2 * 400 + 1500) ≤ 1900)) ∧
    ((∃ p ∈ values, p.2 < -1 ∨ 1 < p.2) →
      ∃ v : ℚ, (v < -1 ∨ 1 < v) ∧
        set_rc_inputs s values = Except.error (VErr.inputOutOfRange v)) := by
  constructor
  · intro h
    have hbuild := buildPwms_ok values h
    refine ⟨?_, hbuild, fun p hp => ?_⟩
    · have hstep : set_rc_inputs s values
          = set_rc_input_pwms s
              (values.map fun p => (p.1.value, pyRound (p.2 * 400 + 1500))) := by
        unfold set_rc_inputs
        rw [hbuild]
      rw [hstep]
      unfold set_rc_input_pwms
      by_cases hg : (!s.connected || !s.armed) = true
      · rw [if_pos hg]
        exact ⟨RcResult.dropped, rfl⟩
      · rw [if_neg hg]
        have hvalid : ∀ q ∈ values.map fun p => (p.1.value, pyRound (p.2 * 400 + 1500)),
            1 ≤ q.1 ∧ q.1 ≤ 18 ∧ 1100 ≤ q.2 ∧ q.2 ≤ 1900 := by
          intro q hq
          obtain ⟨p, hp, hpq⟩ := List.mem_map.mp hq
          obtain ⟨hv1, hv2⟩ := h p hp
          obtain ⟨hb1, hb2⟩ := pyRound_bounds_of_unit hv1 hv2
          obtain ⟨hc1, hc2⟩ := InputChannel.value_bounds p.1
          rw [← hpq]
          exact ⟨hc1, hc2, hb1, hb2⟩
        obtain ⟨cs, hcs⟩ := fillChannels_ok _ (List.replicate 18 65535) hvalid
        rw [hcs]
        exact ⟨RcResult.sent cs, rfl⟩
    · obtain ⟨hv1, hv2⟩ := h p hp
      exact ⟨computePwm_eq_pyRound hv1 hv2, pyRound_bounds_of_unit hv1 hv2⟩
  · intro h
    obtain ⟨v, hv, hbuild⟩ := buildPwms_error values h
    refine ⟨v, hv, ?_⟩
    unfold set_rc_inputs
    rw [hbuild]

/-- C1 witness: the range-policy theorem applied to a connected, armed
state with an all-in-range map (the call succeeds) and to an input map
containing the out-of-range value `2` (the call raises). -/
theorem set_rc_inputs_range_policy_witness :
    (∃ r, set_rc_inputs connArmed [(InputChannel.forward, 1/2)] = Except.ok r) ∧
    (∃ v : ℚ, (v < -1 ∨ 1 < v) ∧
      set_rc_inputs connArmed [(InputChannel.forward, 2)]
        = Except.error (VErr.inputOutOfRange v)) := by
  constructor
  · exact ((set_rc_inputs_range_policy connArmed [(InputChannel.forward, 1/2)]).1
      (by intro p hp; simp at hp; rw [hp]; norm_num)).1
  · exact (set_rc_inputs_range_policy connArmed [(InputChannel.forward, 2)]).2
      ⟨(InputChannel.forward, 2), by simp, by norm_num⟩

/-- C8: channel-id and pwm validation of `set_rc_input_pwms` (on a
connected, armed state — otherwise the call drops the batch before
validating). Channel ids `0`, `19` and `-1` are rejected with the
invalid-channel error regardless of the pwm; channel ids `1` and `18`
are accepted, writing the pwm into slots `0` and `17` of the 18-slot
override array; any pwm outside `[1100, 1900]` on a valid channel is
rejected with the out-of-range error. -/
theorem set_rc_input_pwms_validation (s : VState)
    (hc : s.connected = true) (ha : s.armed = true) :
    (∀ pwm : ℤ, set_rc_input_pwms s [(0, pwm)]
      = Except.error (VErr.invalidChannel 0)) ∧
    (∀ pwm : ℤ, set_rc_input_pwms s [(19, pwm)]
      = Except.error (VErr.invalidChannel 19)) ∧
    (∀ pwm : ℤ, set_rc_input_pwms s [(-1, pwm)]
      = Except.error (VErr.invalidChannel (-1))) ∧
    (∀ pwm : ℤ, 1100 ≤ pwm → pwm ≤ 1900 →
      set_rc_input_pwms s [(1, pwm)]
        = Except.ok (RcResult.sent ((List.replicate 18 65535).set 0 pwm)) ∧
      set_rc_input_pwms s [(18, pwm)]
        = Except.ok (RcResult.sent ((List.replicate 18 65535).set 17 pwm))) ∧
    (∀ channel_id pwm : ℤ, 1 ≤ channel_id → channel_id ≤ 18 →
      (pwm < 1100 ∨ 1900 < pwm) →
      set_rc_input_pwms s [(channel_id, pwm)]
        = Except.error (VErr.pwmOutOfRange pwm)) := by
  have hguard : (!s.connected || !s.armed) = false := by
    simp [hc, ha]
  refine ⟨fun pwm => ?_, fun pwm => ?_, fun pwm => ?_,
    fun pwm h1 h2 => ⟨?_, ?_⟩, fun channel_id pwm h1 h2 h3 => ?_⟩
  all_goals unfold set_rc_input_pwms
  all_goals rw [hguard]
  all_goals simp only [Bool.false_eq_true, if_false]
  · simp only [fillChannels]
    rw [if_pos (by norm_num)]
    rfl
  · simp only [fillChannels]
    rw [if_pos (by norm_num)]
    rfl
  · simp only [fillChannels]
    rw [if_pos (by norm_num)]
    rfl
  · simp only [fillChannels]
    rw [if_neg (by omega), if_neg (by omega)]
    rfl
  · simp only [fillChannels]
    rw [if_neg (by omega), if_neg (by omega)]
    rfl
  · simp only [fillChannels]
    rw [if_neg (by omega), if_pos (by omega)]
    rfl

/-- C8 witness: the validation theorem applied on a connected, armed
state: channel `0` rejected, channel `1` accepted with pwm `1500`,
pwm `2000` rejected on channel `18`. -/
theorem set_rc_input_pwms_validation_witness :
    set_rc_input_pwms connArmed [(0, 1500)]
      = Except.error (VErr.invalidChannel 0) ∧
    set_rc_input_pwms connArmed [(1, 1500)]
      = Except.ok (RcResult.sent ((List.replicate 18 65535).set 0 1500)) ∧
    set_rc_input_pwms connArmed [(18, 2000)]
      = Except.error (VErr.pwmOutOfRange 2000) := by
  refine ⟨(set_rc_input_pwms_validation connArmed rfl rfl).1 1500,
    ((set_rc_input_pwms_validation connArmed rfl rfl).2.2.2.1 1500 (by norm_num)
      (by norm_num)).1,
    (set_rc_input_pwms_validation connArmed rfl rfl).2.2.2.2 18 2000 (by norm_num)
      (by norm_num) (Or.inr (by norm_num))⟩

/-! ## Heartbeat timing and the connection invariant -/

/-- C5 counterexample: with the last heartbeat at time `0` and a
heartbeat-less poll at time exactly `TIMEOUT = 2`, `update` leaves the
state Connected and fires no event — the code's comparison is strict
(`time.time() - self.last_msg_time > TIMEOUT`), so a gap of exactly the
timeout does not transition to Disconnected. -/
theorem update_exact_timeout_counterexample :
    (2 : ℚ) - 0 = TIMEOUT ∧
    update [] c5Connected none none 2 = some (c5Connected, []) := by
  refine ⟨by norm_num [TIMEOUT], ?_⟩
  unfold update c5Connected
  norm_num [TIMEOUT]

/-- C5 (amended): when a Connected state polls with no pending heartbeat
and the time since the last received heartbeat strictly exceeds the
2-second timeout (at exactly the timeout nothing happens), the state
transitions Connected→Disconnected and exactly one disconnect event
fires — on the edge only: any further heartbeat-less poll from the
resulting Disconnected state fires no event. -/
theorem update_disconnect_edge (mm : List (String × ℤ)) (s : VState) (t now : ℚ)
    (hc : s.connected = true) (hl : s.last_msg_time = some t)
    (hgt : TIMEOUT < now - t) :
    update mm s none none now
      = some ({ s with connected := false }, [Event.disconnectedEv]) ∧
    ∀ (mm' : List (String × ℤ)) (now' : ℚ),
      update mm' { s with connected := false } none none now'
        = some ({ s with connected := false }, []) := by
  constructor
  · unfold update
    rw [hl]
    simp [hc, hgt]
  · intro mm' now'
    unfold update
    simp

/-- C5 witness: the edge theorem applied to `c5Connected` with a poll at
time `3 > 2`: one disconnect event, and a much later second poll from the
disconnected result fires none. -/
theorem update_disconnect_edge_witness :
    update [] c5Connected none none 3
      = some ({ c5Connected with connected := false }, [Event.disconnectedEv]) ∧
    update [] { c5Connected with connected := false } none none 1000
      = some ({ c5Connected with connected := false }, []) :=
  ⟨(update_disconnect_edge [] c5Connected 0 3 rfl rfl (by norm_num [TIMEOUT])).1,
   (update_disconnect_edge [] c5Connected 0 3 rfl rfl
     (by norm_num [TIMEOUT])).2 [] 1000⟩

/-- C10: `HeartbeatInv` holds at construction (`connected` starts false,
`last_msg_time` starts `None`) and is preserved by every `update()` call;
under it, `update` never reaches the crash case (`none`), i.e. the
subtraction `time.time() - self.last_msg_time` is never evaluated with
`last_msg_time` unset in any reachable state. -/
theorem update_heartbeat_invariant :
    HeartbeatInv initState ∧
    ∀ (mm : List (String × ℤ)) (s : VState) (msg : Option Heartbeat)
      (vfr : Option ℚ) (now : ℚ), HeartbeatInv s →
      ∃ s' evs, update mm s msg vfr now = some (s', evs) ∧ HeartbeatInv s' := by
  constructor
  · intro h
    simp [initState] at h
  · intro mm s msg vfr now hinv
    match msg with
    | some hb =>
      refine ⟨_, _, rfl, fun _ => ?_⟩
      simp
    | none =>
      by_cases hc : s.connected = true
      · have hl := hinv hc
        obtain ⟨t, ht⟩ := Option.ne_none_iff_exists'.mp hl
        unfold update
        rw [ht]
        simp only [hc, if_true]
        by_cases hto : now - t > TIMEOUT
        · rw [if_pos hto]
          exact ⟨_, _, rfl, fun _ => by simp [ht]⟩
        · rw [if_neg hto]
          exact ⟨_, _, rfl, hinv⟩
      · unfold update
        simp only [hc]
        exact ⟨_, _, rfl, hinv⟩

/-- C10 witness: the invariant theorem applied to the freshly
constructed state with a heartbeat-less poll. -/
theorem update_heartbeat_invariant_witness :
    ∃ s' evs, update [] initState none none 5 = some (s', evs) ∧ HeartbeatInv s' :=
  update_heartbeat_invariant.2 [] initState none none 5
    update_heartbeat_invariant.1

/-! ## ButtonDocking claims -/

/-- C3: `is_finished` is true exactly when at least the minimum task
duration has elapsed since `initialize` and (the stored box width/height
strictly exceeds the "end" fraction of the stored frame dimension, or
the elapsed time reaches the maximum task duration). A frame with no
detected contour changes nothing, and neither `periodic` nor `initialize`
ever writes the dimension fields, so without any observed target they
keep their `-1` sentinels from construction; at the sentinels the box
disjunct is never satisfied and the task finishes exactly at the
maximum-duration timeout. -/
theorem is_finished_characterization :
    (∀ (s : BDState) (now : ℚ), is_finished s now = true ↔
      (s.start_time + MIN_TASK_DURATION ≤ now ∧
        (END_WIDTH_FRACTION * s.image_dims.1 < s.button_dims.1 ∨
         END_HEIGHT_FRACTION * s.image_dims.2 < s.button_dims.2 ∨
         s.start_time + MAX_TASK_DURATION ≤ now))) ∧
    ((∀ s : BDState, handle_frame s none = s) ∧
      (∀ s : BDState, (periodic s).button_dims = s.button_dims ∧
        (periodic s).image_dims = s.image_dims) ∧
      (∀ (s : BDState) (now : ℚ), (bdInit s now).button_dims = s.button_dims ∧
        (bdInit s now).image_dims = s.image_dims)) ∧
    (∀ (s : BDState) (now : ℚ), s.button_dims = (-1, -1) → s.image_dims = (-1, -1) →
      (is_finished s now = true ↔ s.start_time + MAX_TASK_DURATION ≤ now)) := by
  have hmain : ∀ (s : BDState) (now : ℚ), is_finished s now = true ↔
      (s.start_time + MIN_TASK_DURATION ≤ now ∧
        (END_WIDTH_FRACTION * s.image_dims.1 < s.button_dims.1 ∨
         END_HEIGHT_FRACTION * s.image_dims.2 < s.button_dims.2 ∨
         s.start_time + MAX_TASK_DURATION ≤ now)) := by
    intro s now
    simp only [is_finished, Bool.and_eq_true, Bool.or_eq_true, decide_eq_true_eq]
    tauto
  refine ⟨hmain, ⟨fun s => rfl, fun s => ?_, fun s now => ⟨rfl, rfl⟩⟩, fun s now hb hi => ?_⟩
  · unfold periodic
    split_ifs <;> exact ⟨rfl, rfl⟩
  have hb1 : s.button_dims.1 = -1 := by rw [hb]
  have hb2 : s.button_dims.2 = -1 := by rw [hb]
  have hi1 : s.image_dims.1 = -1 := by rw [hi]
  have hi2 : s.image_dims.2 = -1 := by rw [hi]
  rw [hmain, hb1, hb2, hi1, hi2]
  constructor
  · rintro ⟨h1, h2 | h2 | h2⟩
    · norm_num [END_WIDTH_FRACTION] at h2
    · norm_num [END_HEIGHT_FRACTION] at h2
    · exact h2
  · intro h
    refine ⟨?_, Or.inr (Or.inr h)⟩
    have h2 : MIN_TASK_DURATION ≤ MAX_TASK_DURATION := by
      norm_num [MIN_TASK_DURATION, MAX_TASK_DURATION]
    linarith

/-- C3 witness: the characterization applied to the freshly constructed
task (sentinel dimensions, `start_time = 0`): not finished just after the
minimum duration, finished exactly at the maximum duration. -/
theorem is_finished_characterization_witness :
    is_finished bdNew 500 = true ∧ ¬ is_finished bdNew 499 = true :=
  ⟨(is_finished_characterization.2.2 bdNew 500 rfl rfl).mpr (by norm_num [bdNew, MAX_TASK_DURATION]),
   fun h => by
     have := (is_finished_characterization.2.2 bdNew 499 rfl rfl).mp h
     norm_num [bdNew, MAX_TASK_DURATION] at this⟩

theorem periodic_state_cases (s : BDState) :
    (periodic s).state = s.state ∨
    (s.state = 0 ∧ (periodic s).state = 1) ∨
    (s.state = 1 ∧ (periodic s).state = 2) := by
  unfold periodic
  split_ifs <;> simp_all

theorem handle_frame_state (s : BDState) (det : Option Detection) :
    (handle_frame s det).state = s.state := by
  cases det <;> rfl

theorem bdStep_state_le (s : BDState) (ev : BDEvent) :
    s.state ≤ (bdStep s ev).state := by
  cases ev with
  | tick =>
    show s.state ≤ (periodic s).state
    rcases periodic_state_cases s with h | ⟨h0, h⟩ | ⟨h1, h⟩ <;> omega
  | frame det =>
    show s.state ≤ (handle_frame s det).state
    rw [handle_frame_state]

theorem bdRun_state_mono (evs : List BDEvent) :
    ∀ s : BDState, s.state ≤ (bdRun s evs).state := by
  induction evs with
  | nil => intro s; exact le_refl _
  | cons ev rest ih =>
    intro s
    show s.state ≤ (bdRun (bdStep s ev) rest).state
    exact le_trans (bdStep_state_le s ev) (ih (bdStep s ev))

/-- C4: the phase variable progresses strictly forward. `initialize`
starts the task in crawl (phase 0); each `periodic()` call keeps the
phase or advances crawl→steer (on the "start" fraction condition) or
steer→ram (on the "stop" fraction condition); `handle_frame` never
changes the phase; and along any sequence of `periodic()`/`handle_frame()`
calls from any state the phase never decreases — no phase is ever
re-entered once left. -/
theorem phase_forward_progress :
    (∀ (s : BDState) (now : ℚ), (bdInit s now).state = 0) ∧
    (∀ s : BDState, (periodic s).state = s.state ∨
      (s.state = 0 ∧ (periodic s).state = 1) ∨
      (s.state = 1 ∧ (periodic s).state = 2)) ∧
    (∀ (s : BDState) (det : Option Detection), (handle_frame s det).state = s.state) ∧
    (∀ (evs : List BDEvent) (s : BDState), s.state ≤ (bdRun s evs).state) :=
  ⟨fun _ _ => rfl, periodic_state_cases, handle_frame_state,
   fun evs s => bdRun_state_mono evs s⟩

end RovVision
